import Mathlib

/-!
Shallow embedding of `spacy_experimental/span_finder/span_finder_component.py`.

Documents are modelled by their token count together with their `doc.spans`
mapping (an insertion-ordered dict from string keys to span groups); a span is
the pair (start token index, end token index exclusive).  Score matrices are
lists of rational rows (the float values of the claims are exactly
representable).  Stateful code (mutation of `doc.spans`) is modelled by
explicit state passing: each function returns the updated documents.
-/

namespace SpanFinder

/-- A span is (start index inclusive, end index exclusive), as slicing
`doc[start : end + 1]` produces in the source. -/
abbrev Span := Nat × Nat

/-- A document: its token count and its `doc.spans` mapping, modelled as an
insertion-ordered association list from key to span group (only lookup,
insertion and in-place overwrite are used, matching Python dict semantics). -/
structure Doc where
  numTokens : Nat
  spans : List (String × List Span)
deriving DecidableEq, Repr

/-- Lookup of `doc.spans.get(key)` / `doc.spans[key]`. -/
def lookupSpans (doc : Doc) (key : String) : Option (List Span) :=
  List.lookup key doc.spans

/-- Dict assignment `doc.spans[key] = group`: overwrite in place when the key
exists, append otherwise (Python dicts keep insertion order). -/
def setSpans (doc : Doc) (key : String) (group : List Span) : Doc :=
  { doc with
    spans :=
      if doc.spans.any (fun kv => kv.1 == key) then
        doc.spans.map (fun kv => if kv.1 == key then (key, group) else kv)
      else
        doc.spans ++ [(key, group)] }

/-! ### `SpanFinder.set_annotations` (lines 193-226) -/

/-- The slicing loop of `set_annotations` (lines 200-204): for each document
length, `scores[offset : offset + length]` with the running offset. -/
def scoresPerDoc (lengths : List Nat) (offset : Nat) (scores : List (ℚ × ℚ)) :
    List (List (ℚ × ℚ)) :=
  match lengths with
  | [] => []
  | l :: ls => ((scores.drop offset).take l) :: scoresPerDoc ls (offset + l) scores

/-- Lines 208-213: `starts` collects `token.i` for tokens (paired with their
score row by `zip`, which stops at the shorter sequence) whose start score
reaches the threshold. -/
def thresholdStarts (threshold : ℚ) (numTokens : Nat) (ds : List (ℚ × ℚ)) :
    List Nat :=
  ((List.range numTokens).zip ds).filterMap
    (fun p => if threshold ≤ p.2.1 then some p.1 else none)

/-- Lines 208-215: `ends` collects `token.i` for tokens whose end score
reaches the threshold. -/
def thresholdEnds (threshold : ℚ) (numTokens : Nat) (ds : List (ℚ × ℚ)) :
    List Nat :=
  ((List.range numTokens).zip ds).filterMap
    (fun p => if threshold ≤ p.2.2 then some p.1 else none)

/-- The inner `for end in ends` loop (lines 218-226): `span_length = end + 1 -
start` (Python int arithmetic, hence ℤ); emit the span when the length is
positive and inside the configured bounds, `break` when a positive length
exceeds a nonzero `max_length`, otherwise continue. -/
def innerLoop (minL maxL : Int) (s : Nat) : List Nat → List Span
  | [] => []
  | e :: rest =>
    let len : Int := (e : Int) + 1 - (s : Int)
    if 0 < len then
      if (minL ≤ 0 ∨ minL ≤ len) ∧ (maxL ≤ 0 ∨ len ≤ maxL) then
        (s, e + 1) :: innerLoop minL maxL s rest
      else if 0 < maxL ∧ maxL < len then
        []
      else
        innerLoop minL maxL s rest
    else
      innerLoop minL maxL s rest

/-- The outer `for start in starts` loop (line 217): the `break` only leaves
the inner loop. -/
def outerLoop (minL maxL : Int) (starts ends : List Nat) : List Span :=
  starts.flatMap (fun s => innerLoop minL maxL s ends)

/-- The per-document body of `set_annotations` (lines 206-226): reset the
candidates group, threshold the scores into `starts`/`ends`, then run the
candidate loops and store the result. -/
def annotateDoc (key : String) (threshold : ℚ) (minL maxL : Int)
    (doc : Doc) (ds : List (ℚ × ℚ)) : Doc :=
  setSpans doc key
    (outerLoop minL maxL (thresholdStarts threshold doc.numTokens ds)
      (thresholdEnds threshold doc.numTokens ds))

/-- `SpanFinder.set_annotations` (lines 193-226), returning the updated batch
of documents. -/
def set_annotations (key : String) (threshold : ℚ) (minL maxL : Int)
    (docs : List Doc) (scores : List (ℚ × ℚ)) : List Doc :=
  (docs.zip (scoresPerDoc (docs.map (·.numTokens)) 0 scores)).map
    (fun p => annotateDoc key threshold minL maxL p.1 p.2)

/-! ### `SpanFinder._get_reference` (lines 273-293) -/

/-- One reference row (lines 286-291): start flag iff the token index is a
recorded start, end flag iff it equals a recorded `span.end - 1` (Python int
arithmetic, hence ℤ: a span with end 0 would record -1, never a token index). -/
def refRow (startIdx : List Nat) (endIdx : List Int) (i : Nat) : Nat × Nat :=
  (if i ∈ startIdx then 1 else 0, if (i : Int) ∈ endIdx then 1 else 0)

/-- The per-document body of `_get_reference` (lines 276-291): collect start
indices and `end - 1` indices from the reference-key group when present, then
one row per token in index order. -/
def docReference (refKey : String) (doc : Doc) : List (Nat × Nat) :=
  (List.range doc.numTokens).map
    (refRow (((lookupSpans doc refKey).getD []).map (·.1))
      (((lookupSpans doc refKey).getD []).map (fun sp => (sp.2 : Int) - 1)))

/-- `SpanFinder._get_reference` (lines 273-293): rows concatenated in document
order, then token order. -/
def get_reference (refKey : String) (docs : List Doc) : List (Nat × Nat) :=
  docs.flatMap (docReference refKey)

/-! ### `SpanFinder.get_loss` (lines 258-271)

`d_scores = scores - reference_results` is a numpy elementwise subtraction of
two 2-column arrays; when the row counts differ numpy raises a broadcast
error unless one of the operands has exactly one row, in which case that row
is broadcast across the other array.  Failure is modelled by `Option`.  Rows
of both operands always have the same width (two columns) in the component,
so row subtraction is a plain `zipWith`. -/

/-- Elementwise subtraction of two equal-width rows. -/
def rowSub (a b : List ℚ) : List ℚ := List.zipWith (· - ·) a b

/-- Sum of squared entries of one row, for `(d_scores ** 2).sum()`. -/
def rowSqSum (a : List ℚ) : ℚ := (a.map (fun x => x * x)).sum

/-- Numpy subtraction of two 2-column arrays: equal row counts subtract
rowwise; a single-row operand broadcasts; anything else raises. -/
def npSubRows (s r : List (List ℚ)) : Option (List (List ℚ)) :=
  if s.length = r.length then some (List.zipWith rowSub s r)
  else if s.length = 1 then some (r.map (fun row => rowSub (s.headD []) row))
  else if r.length = 1 then some (s.map (fun row => rowSub row (r.headD [])))
  else none

/-- `SpanFinder.get_loss` (lines 269-270) at the array level: `d_scores =
scores - reference`; `loss = float((d_scores ** 2).sum())`; returns `(loss,
d_scores)`, or `none` when the subtraction raises.  (Lines 265-268 build
`reference` from the examples via `get_reference`.) -/
def get_loss (scores reference : List (List ℚ)) : Option (ℚ × List (List ℚ)) :=
  match npSubRows scores reference with
  | none => none
  | some d => some ((d.map rowSqSum).sum, d)

/-! ### `span_finder_score` (lines 112-140) -/

/-- The copy phase (lines 132-135): when the reference key is present, assign
its group to the candidates key on the reference document. -/
def copyRefToCand (candKey refKey : String) (doc : Doc) : Doc :=
  match lookupSpans doc refKey with
  | some g => setSpans doc candKey g
  | none => doc

/-- The restore phase (lines 137-139): reassign the saved original group when
one existed; an absent original is skipped (the key is not removed). -/
def restoreCand (candKey : String) (orig : Option (List Span)) (doc : Doc) :
    Doc :=
  match orig with
  | some g => setSpans doc candKey g
  | none => doc

/-- `span_finder_score` (lines 131-140), with `Scorer.score_spans` abstracted
to the single bit of whether it raises: returns the reference documents'
span state after the call together with that bit.  When the scorer raises,
the exception propagates before the restore loop runs. -/
def span_finder_score (candKey refKey : String) (scorerRaises : Bool)
    (docs : List Doc) : List Doc × Bool :=
  let origs := docs.map (fun d => lookupSpans d candKey)
  let copied := docs.map (copyRefToCand candKey refKey)
  if scorerRaises then (copied, true)
  else ((origs.zip copied).map (fun p => restoreCand candKey p.1 p.2), false)

/-- Follows the spec's words, for the refinement comparison: evaluate the
full starts × ends cross product with only the length filters (positive
length, min/max bounds, an unset bound represented by 0 always passing) and
no early exit. -/
def crossProductCandidates (minL maxL : Int) (starts ends : List Nat) :
    List Span :=
  starts.flatMap (fun s =>
    (ends.filter (fun (e : Nat) =>
      decide (0 < (e : Int) + 1 - (s : Int) ∧
        (minL ≤ 0 ∨ minL ≤ (e : Int) + 1 - (s : Int)) ∧
        (maxL ≤ 0 ∨ (e : Int) + 1 - (s : Int) ≤ maxL)))).map
      (fun e => (s, e + 1)))

/-! ### Auxiliary lemmas -/

theorem lookup_overwrite (l : List (String × List Span)) (key : String)
    (g : List Span) (h : l.any (fun kv => kv.1 == key) = true) :
    List.lookup key (l.map (fun kv => if kv.1 == key then (key, g) else kv))
      = some g := by
  induction l with
  | nil => simp at h
  | cons kv rest ih =>
    obtain ⟨k, v⟩ := kv
    simp only [List.any_cons, Bool.or_eq_true] at h
    by_cases hk : (k == key) = true
    · simp only [List.map_cons, if_pos hk, List.lookup_cons, beq_self_eq_true]
    · have hk' : (key == k) = false := by
        rw [beq_eq_false_iff_ne]
        intro e
        rw [e, beq_self_eq_true] at hk
        exact hk rfl
      simp only [List.map_cons, if_neg hk, List.lookup_cons, hk']
      exact ih (h.resolve_left hk)

theorem lookup_append_last (l : List (String × List Span)) (key : String)
    (g : List Span) (h : l.any (fun kv => kv.1 == key) = false) :
    List.lookup key (l ++ [(key, g)]) = some g := by
  induction l with
  | nil => simp [List.lookup_cons]
  | cons kv rest ih =>
    obtain ⟨k, v⟩ := kv
    simp only [List.any_cons, Bool.or_eq_false_iff] at h
    have hk' : (key == k) = false := by
      rw [beq_eq_false_iff_ne]
      intro e
      rw [← e, beq_self_eq_true] at h
      exact Bool.true_eq_false.mp h.1
    simp only [List.cons_append, List.lookup_cons, hk']
    exact ih h.2

theorem lookup_setSpans (doc : Doc) (key : String) (g : List Span) :
    lookupSpans (setSpans doc key g) key = some g := by
  unfold lookupSpans setSpans
  by_cases h : doc.spans.any (fun kv => kv.1 == key)
  · simpa [h] using lookup_overwrite doc.spans key g h
  · simp only [Bool.not_eq_true] at h
    simpa [h] using lookup_append_last doc.spans key g h

theorem mem_innerLoop {minL maxL : Int} {s : Nat} {ends : List Nat}
    {sp : Span} (h : sp ∈ innerLoop minL maxL s ends) :
    sp.1 = s ∧ s < sp.2 ∧
      (minL ≤ 0 ∨ minL ≤ (sp.2 : Int) - (sp.1 : Int)) ∧
      (maxL ≤ 0 ∨ (sp.2 : Int) - (sp.1 : Int) ≤ maxL) := by
  induction ends with
  | nil => simp [innerLoop] at h
  | cons e rest ih =>
    rw [innerLoop] at h
    split_ifs at h with h1 h2 h3
    · rcases List.mem_cons.mp h with h | h
      · subst h
        refine ⟨rfl, ?_, ?_, ?_⟩
        · omega
        · rcases h2.1 with h' | h'
          · exact Or.inl h'
          · right; push_cast; omega
        · rcases h2.2 with h' | h'
          · exact Or.inl h'
          · right; push_cast; omega
      · exact ih h
    · simp at h
    · exact ih h
    · exact ih h

theorem outerLoop_ends_nil (minL maxL : Int) (starts : List Nat) :
    outerLoop minL maxL starts [] = [] := by
  induction starts with
  | nil => rfl
  | cons s rest ih => simp [outerLoop, innerLoop]

theorem mem_outerLoop {minL maxL : Int} {starts ends : List Nat} {sp : Span}
    (h : sp ∈ outerLoop minL maxL starts ends) :
    sp.1 ∈ starts ∧ sp ∈ innerLoop minL maxL sp.1 ends := by
  rcases List.mem_flatMap.mp h with ⟨s, hs, hmem⟩
  have := (mem_innerLoop hmem).1
  subst this
  exact ⟨hs, hmem⟩

theorem mem_zipRange {n : Nat} {ds : List (ℚ × ℚ)} {j : Nat} {x : ℚ × ℚ}
    (h : (j, x) ∈ (List.range n).zip ds) : j < n ∧ j < ds.length := by
  rcases List.mem_iff_getElem.mp h with ⟨i, hi, hget⟩
  have hlen : i < n ∧ i < ds.length := by
    rw [List.length_zip, List.length_range] at hi
    omega
  rw [List.getElem_zip] at hget
  have hj : j = i := by
    have := congrArg Prod.fst hget
    simpa [List.getElem_range] using this.symm
  subst hj
  exact hlen

theorem mem_thresholdStarts {th : ℚ} {n : Nat} {ds : List (ℚ × ℚ)} {j : Nat}
    (h : j ∈ thresholdStarts th n ds) : j < n ∧ j < ds.length := by
  rcases List.mem_filterMap.mp h with ⟨⟨i, x⟩, hp, hf⟩
  split_ifs at hf
  rw [Option.some.injEq] at hf
  subst hf
  exact mem_zipRange hp

theorem mem_thresholdEnds {th : ℚ} {n : Nat} {ds : List (ℚ × ℚ)} {j : Nat}
    (h : j ∈ thresholdEnds th n ds) : j < n ∧ j < ds.length := by
  rcases List.mem_filterMap.mp h with ⟨⟨i, x⟩, hp, hf⟩
  split_ifs at hf
  rw [Option.some.injEq] at hf
  subst hf
  exact mem_zipRange hp

theorem scoresPerDoc_take (ls : List Nat) (off : Nat) (scores : List (ℚ × ℚ)) :
    scoresPerDoc ls off (scores.take (off + ls.sum))
      = scoresPerDoc ls off scores := by
  induction ls generalizing off with
  | nil => rfl
  | cons l rest ih =>
    simp only [scoresPerDoc, List.sum_cons]
    have h1 : ((scores.take (off + (l + rest.sum))).drop off).take l
        = (scores.drop off).take l := by
      rw [List.drop_take, List.take_take]
      congr 1
      omega
    have h2 : scoresPerDoc rest (off + l) (scores.take (off + (l + rest.sum)))
        = scoresPerDoc rest (off + l) scores := by
      have := ih (off + l)
      rw [show off + l + rest.sum = off + (l + rest.sum) by omega] at this
      exact this
    rw [h1, h2]

theorem scoresPerDoc_len_le (ls : List Nat) (off : Nat)
    (scores : List (ℚ × ℚ)) (i : Nat) (l : Nat) (d : List (ℚ × ℚ))
    (h1 : ls[i]? = some l) (h2 : (scoresPerDoc ls off scores)[i]? = some d) :
    d.length ≤ l := by
  induction ls generalizing off i with
  | nil => simp at h1
  | cons a rest ih =>
    cases i with
    | zero =>
      rw [List.getElem?_cons_zero, Option.some.injEq] at h1
      rw [scoresPerDoc, List.getElem?_cons_zero, Option.some.injEq] at h2
      subst h1
      subst h2
      rw [List.length_take]
      omega
    | succ n =>
      rw [List.getElem?_cons_succ] at h1
      rw [scoresPerDoc, List.getElem?_cons_succ] at h2
      exact ih (off + a) n h1 h2

theorem getElem?_zip_eq_some {α β : Type} {l1 : List α} {l2 : List β}
    {i : Nat} {a : α} {b : β} (h : (l1.zip l2)[i]? = some (a, b)) :
    l1[i]? = some a ∧ l2[i]? = some b := by
  have hz : l1.zip l2 = List.zipWith Prod.mk l1 l2 := rfl
  rw [hz, List.getElem?_zipWith] at h
  rcases h1 : l1[i]? with _ | x
  · rw [h1] at h
    simp at h
  · rcases h2 : l2[i]? with _ | y
    · rw [h1, h2] at h
      simp at h
    · rw [h1, h2] at h
      simp only [Option.some.injEq, Prod.mk.injEq] at h
      rw [h.1, h.2]
      exact ⟨rfl, rfl⟩

theorem innerLoop_eq_filter (minL maxL : Int) (s : Nat) (ends : List Nat)
    (hsorted : ends.Pairwise (· ≤ ·)) :
    innerLoop minL maxL s ends =
      (ends.filter (fun (e : Nat) =>
        decide (0 < (e : Int) + 1 - (s : Int) ∧
          (minL ≤ 0 ∨ minL ≤ (e : Int) + 1 - (s : Int)) ∧
          (maxL ≤ 0 ∨ (e : Int) + 1 - (s : Int) ≤ maxL)))).map
        (fun e => (s, e + 1)) := by
  induction ends with
  | nil => rfl
  | cons e rest ih =>
    rw [List.pairwise_cons] at hsorted
    obtain ⟨hle, hrest⟩ := hsorted
    by_cases h1 : (0 : Int) < (e : Int) + 1 - (s : Int)
    · by_cases h2 : (minL ≤ 0 ∨ minL ≤ (e : Int) + 1 - (s : Int)) ∧
          (maxL ≤ 0 ∨ (e : Int) + 1 - (s : Int) ≤ maxL)
      · simp only [innerLoop]
        rw [if_pos h1, if_pos h2, List.filter_cons,
          if_pos (decide_eq_true ⟨h1, h2.1, h2.2⟩), List.map_cons, ih hrest]
      · by_cases h3 : 0 < maxL ∧ maxL < (e : Int) + 1 - (s : Int)
        · -- the break: every remaining end also fails the max bound
          obtain ⟨h3a, h3b⟩ := h3
          simp only [innerLoop]
          rw [if_pos h1, if_neg h2, if_pos ⟨h3a, h3b⟩]
          have hfil : (e :: rest).filter (fun (e' : Nat) =>
              decide (0 < (e' : Int) + 1 - (s : Int) ∧
                (minL ≤ 0 ∨ minL ≤ (e' : Int) + 1 - (s : Int)) ∧
                (maxL ≤ 0 ∨ (e' : Int) + 1 - (s : Int) ≤ maxL))) = [] := by
            rw [List.filter_eq_nil_iff]
            intro e' he'
            simp only [decide_eq_true_eq]
            rcases List.mem_cons.mp he' with he' | he'
            · subst he'
              intro hc
              exact h2 ⟨hc.2.1, hc.2.2⟩
            · have hee : (e : Int) ≤ (e' : Int) := by exact_mod_cast hle e' he'
              intro hc
              rcases hc.2.2 with hm | hm <;> omega
          rw [hfil]
          rfl
        · simp only [innerLoop]
          rw [if_pos h1, if_neg h2, if_neg h3, List.filter_cons,
            if_neg (by simp only [decide_eq_true_eq]
                       intro hc
                       exact h2 ⟨hc.2.1, hc.2.2⟩)]
          exact ih hrest
    · simp only [innerLoop]
      rw [if_neg h1, List.filter_cons,
        if_neg (by simp only [decide_eq_true_eq]
                   intro hc
                   exact h1 hc.1)]
      exact ih hrest

/-! ### Claim theorems -/

/-- Claim C1 (code bug witnessed): `span_finder_score` does NOT restore the
reference documents' state under the candidates key.  On a reference
document holding a gold group under `"sc"` but no `"span_candidates"` key, a
successful call leaves the copied gold group stored under
`"span_candidates"` (the key is not removed), and when the wrapped scorer
raises, nothing at all is restored: a pre-existing `[(0, 2)]` candidates
group is left overwritten by the gold group `[(0, 1)]`. -/
theorem span_finder_score_not_transactional :
    lookupSpans (Doc.mk 1 [("sc", [(0, 1)])]) "span_candidates" = none ∧
    (span_finder_score "span_candidates" "sc" false
        [Doc.mk 1 [("sc", [(0, 1)])]]).1
      = [Doc.mk 1 [("sc", [(0, 1)]), ("span_candidates", [(0, 1)])]] ∧
    lookupSpans (Doc.mk 1 [("sc", [(0, 1)]), ("span_candidates", [(0, 1)])])
        "span_candidates" = some [(0, 1)] ∧
    (span_finder_score "span_candidates" "sc" true
        [Doc.mk 1 [("span_candidates", [(0, 2)]), ("sc", [(0, 1)])]]).1
      = [Doc.mk 1 [("span_candidates", [(0, 1)]), ("sc", [(0, 1)])]] :=
  ⟨rfl, by rfl, by rfl, by rfl⟩

/-- Claim C2: for every pair of same-row-count matrices, `get_loss` returns
the sum-of-squared-error loss over the elementwise differences (not
mean-normalized) and returns exactly the elementwise difference
`scores - reference` as the gradient; in particular for scores
`[[1,0],[0,1]]` and reference `[[1,0],[0,0]]` it returns loss `1` and
gradient `[[0,0],[0,1]]`. -/
theorem get_loss_sum_squared_error :
    (∀ s r : List (List ℚ), s.length = r.length →
      ∃ g : List (List ℚ),
        get_loss s r
          = some ((g.map (fun row => (row.map (fun x => x * x)).sum)).sum, g) ∧
        ∀ i j : Nat,
          (g[i]?.bind fun row => row[j]?)
            = s[i]?.bind fun a => r[i]?.bind fun b =>
                a[j]?.bind fun x => b[j]?.map fun y => x - y) ∧
    get_loss [[1, 0], [0, 1]] [[1, 0], [0, 0]]
      = some (1, [[0, 0], [0, 1]]) := by
  constructor
  · intro s r h
    have hnp : npSubRows s r = some (List.zipWith rowSub s r) := by
      rw [npSubRows, if_pos h]
    refine ⟨List.zipWith rowSub s r, ?_, ?_⟩
    · unfold get_loss
      rw [hnp]
      rfl
    · intro i j
      rw [List.getElem?_zipWith]
      rcases hs : s[i]? with _ | a <;> rcases hr : r[i]? with _ | b
      · rfl
      · rfl
      · rfl
      · simp only [Option.some_bind]
        show (rowSub a b)[j]? = _
        rw [rowSub, List.getElem?_zipWith]
        rcases ha : a[j]? with _ | x <;> rcases hb : b[j]? with _ | y <;> rfl
  · with_unfolding_all rfl

/-- Witness for C2 at a concrete input with row counts equal. -/
theorem get_loss_sum_squared_error_witness :
    ∃ g : List (List ℚ),
      get_loss [[2, 0]] [[1, 0]]
        = some ((g.map (fun row => (row.map (fun x => x * x)).sum)).sum, g) ∧
      ∀ i j : Nat,
        (g[i]?.bind fun row => row[j]?)
          = ([[2, 0]] : List (List ℚ))[i]?.bind fun a =>
              ([[1, 0]] : List (List ℚ))[i]?.bind fun b =>
                a[j]?.bind fun x => b[j]?.map fun y => x - y :=
  get_loss_sum_squared_error.1 [[2, 0]] [[1, 0]] rfl

/-- Claim C3: the reference matrix has one row per token in batch order; the
row for token i has a start flag iff i is the start of some span in the
reference-key group and an end flag iff i equals `end - 1` of some such
span; both flags are 0 for every token when the key is absent; and the gold
group `{[1,3)}` on a 5-token document yields
`[(0,0),(1,0),(0,1),(0,0),(0,0)]`. -/
theorem get_reference_rows :
    (∀ (refKey : String) (docs : List Doc),
      get_reference refKey docs
        = docs.flatMap (fun doc =>
            (List.range doc.numTokens).map (fun i =>
              ((if ∃ sp ∈ (lookupSpans doc refKey).getD [], sp.1 = i
                  then (1 : Nat) else 0),
               (if ∃ sp ∈ (lookupSpans doc refKey).getD [],
                    (sp.2 : Int) - 1 = (i : Int)
                  then (1 : Nat) else 0))))) ∧
    (∀ (refKey : String) (doc : Doc), lookupSpans doc refKey = none →
      docReference refKey doc = List.replicate doc.numTokens (0, 0)) ∧
    get_reference "sc" [Doc.mk 5 [("sc", [(1, 3)])]]
      = [(0, 0), (1, 0), (0, 1), (0, 0), (0, 0)] := by
  refine ⟨?_, ?_, by rfl⟩
  · intro refKey docs
    rw [get_reference]
    refine congrArg docs.flatMap (funext fun doc => ?_)
    rw [docReference]
    refine congrArg (fun f => List.map f (List.range doc.numTokens))
      (funext fun i => ?_)
    simp only [refRow, List.mem_map]
  · intro refKey doc h
    simp only [docReference, h, Option.getD_none, List.map_nil]
    rw [List.eq_replicate_iff]
    refine ⟨by simp, ?_⟩
    intro b hb
    rcases List.mem_map.mp hb with ⟨i, -, hi⟩
    rw [← hi]
    simp [refRow]

/-- Witness for C3 on a document without the reference key. -/
theorem get_reference_rows_witness :
    docReference "sc" (Doc.mk 2 []) = List.replicate 2 (0, 0) :=
  get_reference_rows.2.1 "sc" (Doc.mk 2 []) rfl

/-- Claim C4: with nonnegative `min_length`/`max_length`, every span emitted
by `set_annotations` into the candidates group has positive length, length
at least `min_length` when `min_length` is nonzero, and length at most
`max_length` when `max_length` is nonzero. -/
theorem set_annotations_length_bounds (key : String) (th : ℚ)
    (minL maxL : Int) (docs : List Doc) (scores : List (ℚ × ℚ))
    (hmin : 0 ≤ minL) (hmax : 0 ≤ maxL) (doc' : Doc)
    (hdoc : doc' ∈ set_annotations key th minL maxL docs scores)
    (sp : Span) (hsp : sp ∈ (lookupSpans doc' key).getD []) :
    sp.1 < sp.2 ∧
      (minL ≠ 0 → minL ≤ (sp.2 : Int) - (sp.1 : Int)) ∧
      (maxL ≠ 0 → (sp.2 : Int) - (sp.1 : Int) ≤ maxL) := by
  rcases List.mem_map.mp hdoc with ⟨p, hp, hEq⟩
  subst hEq
  simp only [annotateDoc, lookup_setSpans, Option.getD_some] at hsp
  obtain ⟨-, hin⟩ := mem_outerLoop hsp
  obtain ⟨h1, h2, h3, h4⟩ := mem_innerLoop hin
  refine ⟨h2, ?_, ?_⟩
  · intro hne
    rcases h3 with h | h
    · omega
    · exact h
  · intro hne
    rcases h4 with h | h
    · omega
    · exact h

/-- Witness for C4 with `min_length = 1`, `max_length = 2` on a concrete
batch. -/
theorem set_annotations_length_bounds_witness :
    (0 : Nat) < 2 ∧ ((1 : Int) ≠ 0 → (1 : Int) ≤ (2 : Int) - 0) ∧
      ((2 : Int) ≠ 0 → (2 : Int) - 0 ≤ 2) :=
  set_annotations_length_bounds "span_candidates" 1 1 2 [Doc.mk 4 []]
    [(1, 0), (0, 1), (1, 0), (0, 1)] (by decide) (by decide)
    (Doc.mk 4 [("span_candidates", [(0, 2), (2, 4)])])
    (by with_unfolding_all decide) (0, 2) (by with_unfolding_all decide)

/-- Claim C5: for ascending starts and ends, the candidate loop with its
early break emits exactly the spans of the full cross product filtered only
by the length bounds, in the same order. -/
theorem outerLoop_eq_crossProduct (minL maxL : Int) (starts ends : List Nat)
    (_hstarts : starts.Pairwise (· ≤ ·)) (hends : ends.Pairwise (· ≤ ·)) :
    outerLoop minL maxL starts ends
      = crossProductCandidates minL maxL starts ends := by
  unfold outerLoop crossProductCandidates
  exact congrArg starts.flatMap
    (funext fun s => innerLoop_eq_filter minL maxL s ends hends)

/-- Witness for C5 on the spec's example index sets. -/
theorem outerLoop_eq_crossProduct_witness :
    outerLoop 0 2 [0, 2] [1, 3] = crossProductCandidates 0 2 [0, 2] [1, 3] :=
  outerLoop_eq_crossProduct 0 2 [0, 2] [1, 3] (by decide) (by decide)

/-- Claim C6: with thresholded starts `{0, 2}` and ends `{1, 3}` and no
length bounds, `set_annotations` emits exactly `[0,2), [0,4), [2,4)` in that
order, excluding the zero-length pair (start 2, end 1). -/
theorem set_annotations_cross_product_example :
    set_annotations "span_candidates" (1 / 2) 0 0 [Doc.mk 4 []]
        [(1, 0), (0, 1), (1, 0), (0, 1)]
      = [Doc.mk 4 [("span_candidates", [(0, 2), (0, 4), (2, 4)])]] := by
  with_unfolding_all rfl

/-- Claim C7: same starts and ends with `max_length = 2`: exactly `[0,2)`
and `[2,4)` are emitted, `[0,4)` being excluded for its length 4. -/
theorem set_annotations_max_length_example :
    set_annotations "span_candidates" (1 / 2) 0 2 [Doc.mk 4 []]
        [(1, 0), (0, 1), (1, 0), (0, 1)]
      = [Doc.mk 4 [("span_candidates", [(0, 2), (2, 4)])]] := by
  with_unfolding_all rfl

/-- Counterexample to claim C8 as stated: a single-row scores matrix against
a three-row reference matrix has different row counts, yet `get_loss`
succeeds — numpy broadcasting applies the single row across the other
operand instead of raising. -/
theorem get_loss_broadcasts_single_row :
    ([[1, 0]] : List (List ℚ)).length
        ≠ ([[0, 0], [0, 0], [0, 1]] : List (List ℚ)).length ∧
    get_loss [[1, 0]] [[0, 0], [0, 0], [0, 1]]
      = some (4, [[1, 0], [1, 0], [1, -1]]) :=
  ⟨by decide, by with_unfolding_all rfl⟩

/-- Claim C8 (amended): when the row counts differ and neither operand has
exactly one row, `get_loss` fails rather than returning truncated or
broadcast data. -/
theorem get_loss_shape_mismatch_fails (s r : List (List ℚ))
    (hne : s.length ≠ r.length) (hs : s.length ≠ 1) (hr : r.length ≠ 1) :
    get_loss s r = none := by
  unfold get_loss npSubRows
  rw [if_neg hne, if_neg hs, if_neg hr]

/-- Witness for the amended C8: two rows against three rows fails. -/
theorem get_loss_shape_mismatch_fails_witness :
    get_loss [[1, 0], [2, 0]] [[0, 0], [0, 0], [0, 1]] = none :=
  get_loss_shape_mismatch_fails [[1, 0], [2, 0]] [[0, 0], [0, 0], [0, 1]]
    (by decide) (by decide) (by decide)

/-- Claim C9: for every document whose thresholded start or end index list
is empty, `set_annotations` stores a present-but-empty candidates group,
replacing whatever was previously stored under that key. -/
theorem set_annotations_empty_candidates (key : String) (th : ℚ)
    (minL maxL : Int) (docs : List Doc) (scores : List (ℚ × ℚ)) (i : Nat)
    (doc : Doc) (ds : List (ℚ × ℚ))
    (hzip : (docs.zip
        (scoresPerDoc (docs.map (·.numTokens)) 0 scores))[i]?
      = some (doc, ds))
    (hempty : thresholdStarts th doc.numTokens ds = [] ∨
      thresholdEnds th doc.numTokens ds = []) :
    (set_annotations key th minL maxL docs scores)[i]?
        = some (annotateDoc key th minL maxL doc ds) ∧
      lookupSpans (annotateDoc key th minL maxL doc ds) key = some [] := by
  constructor
  · simp only [set_annotations, List.getElem?_map, hzip, Option.map_some']
  · simp only [annotateDoc]
    rcases hempty with h | h
    · rw [h]
      exact lookup_setSpans doc key _
    · rw [h, outerLoop_ends_nil]
      exact lookup_setSpans doc key []

/-- Witness for C9: overwrites a pre-existing candidates group with an empty
one when no score reaches the threshold. -/
theorem set_annotations_empty_candidates_witness :
    (set_annotations "k" 1 0 0 [Doc.mk 2 [("k", [(0, 1)])]]
        [(0, 0), (0, 0)])[0]?
        = some (annotateDoc "k" 1 0 0 (Doc.mk 2 [("k", [(0, 1)])])
            [(0, 0), (0, 0)]) ∧
      lookupSpans (annotateDoc "k" 1 0 0 (Doc.mk 2 [("k", [(0, 1)])])
          [(0, 0), (0, 0)]) "k" = some [] :=
  set_annotations_empty_candidates "k" 1 0 0 [Doc.mk 2 [("k", [(0, 1)])]]
    [(0, 0), (0, 0)] 0 (Doc.mk 2 [("k", [(0, 1)])]) [(0, 0), (0, 0)]
    (by with_unfolding_all rfl) (Or.inl (by with_unfolding_all rfl))

/-- Claim C10: `set_annotations` validates no shapes — rows beyond the
batch's total token count are silently ignored, and each document's
thresholded start/end indices only ever come from tokens the (possibly
short) score slice covers, so trailing tokens of an under-covered document
are never considered; no error is raised in either case (the function is
total). -/
theorem set_annotations_no_shape_checks (key : String) (th : ℚ)
    (minL maxL : Int) (docs : List Doc) (scores : List (ℚ × ℚ)) :
    set_annotations key th minL maxL docs scores
        = set_annotations key th minL maxL docs
            (scores.take ((docs.map (·.numTokens)).sum)) ∧
      ∀ (i : Nat) (doc : Doc) (ds : List (ℚ × ℚ)),
        (docs.zip
            (scoresPerDoc (docs.map (·.numTokens)) 0 scores))[i]?
          = some (doc, ds) →
        ds.length ≤ doc.numTokens ∧
          ∀ j, j ∈ thresholdStarts th doc.numTokens ds ∨
              j ∈ thresholdEnds th doc.numTokens ds →
            j < doc.numTokens ∧ j < ds.length := by
  constructor
  · have h : scoresPerDoc (docs.map (·.numTokens)) 0
        (scores.take ((docs.map (·.numTokens)).sum))
        = scoresPerDoc (docs.map (·.numTokens)) 0 scores := by
      have := scoresPerDoc_take (docs.map (·.numTokens)) 0 scores
      rw [Nat.zero_add] at this
      exact this
    rw [set_annotations, set_annotations, h]
  · intro i doc ds hzip
    obtain ⟨hd, hs⟩ := getElem?_zip_eq_some hzip
    have hl : (docs.map (·.numTokens))[i]? = some doc.numTokens := by
      rw [List.getElem?_map, hd, Option.map_some']
    refine ⟨scoresPerDoc_len_le _ 0 scores i _ _ hl hs, ?_⟩
    intro j hj
    rcases hj with hj | hj
    · exact mem_thresholdStarts hj
    · exact mem_thresholdEnds hj

/-- Witness for C10: two 2-token documents with only three score rows — the
second document's slice covers one token, and only token 0 can be
thresholded there. -/
theorem set_annotations_no_shape_checks_witness :
    set_annotations "k" 1 0 0 [Doc.mk 2 [], Doc.mk 2 []]
        [(1, 1), (1, 1), (1, 1)]
        = set_annotations "k" 1 0 0 [Doc.mk 2 [], Doc.mk 2 []]
            (([(1, 1), (1, 1), (1, 1)] : List (ℚ × ℚ)).take
              (([Doc.mk 2 [], Doc.mk 2 []].map (·.numTokens)).sum)) ∧
      ((0 : Nat) < 2 ∧ (0 : Nat) < 1) :=
  ⟨(set_annotations_no_shape_checks "k" 1 0 0 [Doc.mk 2 [], Doc.mk 2 []]
      [(1, 1), (1, 1), (1, 1)]).1,
   (((set_annotations_no_shape_checks "k" 1 0 0 [Doc.mk 2 [], Doc.mk 2 []]
      [(1, 1), (1, 1), (1, 1)]).2 1 (Doc.mk 2 []) [(1, 1)]
      (by with_unfolding_all rfl)).2 0
      (Or.inl (by with_unfolding_all decide)))⟩

end SpanFinder
